import Mathlib

/-!
Verification of the client-side citation-alignment and highlighting engine
of the repository (authoritative variant: the most recent client script,
`displaySearchResults` / `insertCitationMarkersInText` /
`findCitedTextPositionAndLength` / `findWordBoundaryAfter` /
`handleMarkerClick` / hover handlers / `escapeHtml`).

Strings are modelled as `List Char`; JS string indices become list positions.
`text.indexOf(pat)` becomes `findSubstr`, `text.slice(a, b)` becomes
`sliceJS`, and the DOM-based `escapeHtml` (a `div.textContent` write followed
by an `innerHTML` read) becomes the HTML text-node serialisation that encodes
the characters the serialiser encodes.
-/

namespace Rag

/-- Character class of the JS regex `\s` (ECMAScript WhiteSpace and
LineTerminator), used by `findWordBoundaryAfter` and by `String.trim`. -/
def jsWhitespace (c : Char) : Bool :=
  c == ' ' || c == '\t' || c == '\n' || c.toNat == 0x0b || c.toNat == 0x0c ||
  c == '\r' || c.toNat == 0xa0 || c.toNat == 0x1680 ||
  (0x2000 ≤ c.toNat && c.toNat ≤ 0x200a) || c.toNat == 0x2028 ||
  c.toNat == 0x2029 || c.toNat == 0x202f || c.toNat == 0x205f ||
  c.toNat == 0x3000 || c.toNat == 0xfeff

/-- Character class of the JS regex `\w`: ASCII alphanumerics and underscore. -/
def isWordChar (c : Char) : Bool :=
  c.isAlphanum || c == '_'

/-- Character class of the JS regex `[\s.,;:!?)\]]` from
`findWordBoundaryAfter`: whitespace or closing punctuation. -/
def isBoundaryChar (c : Char) : Bool :=
  jsWhitespace c || c == '.' || c == ',' || c == ';' || c == ':' ||
  c == '!' || c == '?' || c == ')' || c == ']'

/-- Encoding of one character by the HTML text-node serialiser:
`escapeHtml` writes its argument into a detached `div` via `textContent` and
reads back `innerHTML`, which encodes the ampersand, the angle brackets and
the no-break space and leaves every other character unchanged. -/
def escapeChar (c : Char) : List Char :=
  if c = '&' then "&amp;".data
  else if c = '<' then "&lt;".data
  else if c = '>' then "&gt;".data
  else if c.toNat = 0xa0 then "&nbsp;".data
  else [c]

/-- Embedding of `escapeHtml(text)`: the `div.textContent` write /
`div.innerHTML` read round-trip, i.e. HTML text-node serialisation. -/
def escapeHtml (s : List Char) : List Char :=
  (s.map escapeChar).flatten

/-- Embedding of `haystack.indexOf(pat)`: the first position at which `pat`
occurs as a contiguous sublist, `none` when `indexOf` returns `-1`. -/
def findSubstr (hay pat : List Char) : Option Nat :=
  if pat.isPrefixOf hay then some 0
  else
    match hay with
    | [] => none
    | _ :: t => (findSubstr t pat).map (· + 1)

/-- Embedding of `.replace(/\*\*/g, '')`: drop every occurrence of two
consecutive asterisks, scanning left to right and continuing after each
match (the bold-markup removal step of the locator's cleaning pass). -/
def removeBold : List Char → List Char
  | '*' :: '*' :: t => removeBold t
  | c :: t => c :: removeBold t
  | [] => []

/-- Embedding of `.replace(/\*/g, '')`: drop every remaining asterisk
(the italic-markup removal step). -/
def removeItalic : List Char → List Char
  | '*' :: t => removeItalic t
  | c :: t => c :: removeItalic t
  | [] => []

/-- The backtick character (U+0060), the inline-code delimiter removed by
the cleaning pass. -/
def codeTick : Char := Char.ofNat 96

/-- Embedding of the inline-code removal step: drop every backtick. -/
def removeCode : List Char → List Char
  | [] => []
  | c :: t => if c = codeTick then removeCode t else c :: removeCode t

/-- Match attempt for `#{1,6}\s` at the head of `s` with exactly `k` hash
marks: `s` starts with `k` hashes followed by one whitespace character. -/
def headingTry (s : List Char) (k : Nat) : Bool :=
  (List.replicate k '#').isPrefixOf s &&
    (match s.get? k with
     | some c => jsWhitespace c
     | none => false)

/-- Greedy head match of the regex `#{1,6}\s`: the largest hash count
`k ≤ 6` such that `k` hashes followed by a whitespace character start `s`. -/
def headingLen (s : List Char) : Option Nat :=
  [6, 5, 4, 3, 2, 1].find? (headingTry s)

/-- Fuel-indexed worker for `.replace(/#{1,6}\s/g, '')`: at each position,
if the heading pattern matches greedily, drop the matched `k` hashes and the
whitespace character and continue after the match; otherwise keep the
character.  The fuel is an upper bound on the number of scan steps; it is
instantiated with the input length, which always suffices because every
step consumes at least one character. -/
def removeHeadingsGo : Nat → List Char → List Char
  | _, [] => []
  | 0, s => s
  | fuel + 1, c :: t =>
    match headingLen (c :: t) with
    | some k => removeHeadingsGo fuel ((c :: t).drop (k + 1))
    | none => c :: removeHeadingsGo fuel t

/-- Embedding of `.replace(/#{1,6}\s/g, '')`: the heading-prefix removal
step of the cleaning pass. -/
def removeHeadings (s : List Char) : List Char :=
  removeHeadingsGo s.length s

/-- Head match of the regex `\[([^\]]+)\]\([^\)]+\)`: on success, the link
label (capture group 1) together with `n` such that the whole match spans
`n + 1` characters of `s`. -/
def linkMatch (s : List Char) : Option (List Char × Nat) :=
  match s with
  | '[' :: t =>
    let label := t.takeWhile (fun c => c ≠ ']')
    if label.isEmpty then none
    else
      match t.drop label.length with
      | ']' :: '(' :: u =>
        let url := u.takeWhile (fun c => c ≠ ')')
        if url.isEmpty then none
        else
          match u.drop url.length with
          | ')' :: _ => some (label, label.length + url.length + 3)
          | _ => none
      | _ => none
  | _ => none

/-- Fuel-indexed worker for `.replace(/\[([^\]]+)\]\([^\)]+\)/g, '$1')`:
replace each markdown link by its label, scanning left to right. -/
def removeLinksGo : Nat → List Char → List Char
  | _, [] => []
  | 0, s => s
  | fuel + 1, c :: t =>
    match linkMatch (c :: t) with
    | some (label, n) => label ++ removeLinksGo fuel ((c :: t).drop (n + 1))
    | none => c :: removeLinksGo fuel t

/-- Embedding of the link-syntax reduction step of the cleaning pass. -/
def removeLinks (s : List Char) : List Char :=
  removeLinksGo s.length s

/-- Embedding of `String.prototype.trim()`: strip leading and trailing
whitespace. -/
def trimJS (s : List Char) : List Char :=
  ((s.dropWhile jsWhitespace).reverse.dropWhile jsWhitespace).reverse

/-- The cleaned excerpt computed inside `findCitedTextPositionAndLength`:
bold, italic, heading prefixes, inline code and link syntax removed, then
trimmed, in exactly the source's order of `.replace` calls. -/
def cleanCited (cited : List Char) : List Char :=
  trimJS (removeLinks (removeCode (removeHeadings (removeItalic (removeBold cited)))))

/-- Embedding of `findCitedTextPositionAndLength(text, citedText)` (the Text
Locator).  The source's not-found sentinel `{position: -1, length: 0}` is
modelled as `none`; a found result `{position, length}` as
`some (position, length)`. -/
def findCitedTextPositionAndLength (text cited : List Char) : Option (Nat × Nat) :=
  match findSubstr text cited with
  | some p => some (p, cited.length)
  | none =>
    let clean := cleanCited cited
    match findSubstr text clean with
    | some p => some (p, clean.length)
    | none =>
      match findSubstr (text.map Char.toLower) (clean.map Char.toLower) with
      | some p => some (p, clean.length)
      | none => none

/-- The while-loop of `findWordBoundaryAfter`: starting from position `pos`
with remaining text `rest = text.drop pos`, advance while the current
character is a word character. -/
def advanceGo : List Char → Nat → Nat
  | [], pos => pos
  | c :: rest, pos => if isWordChar c then advanceGo rest (pos + 1) else pos

/-- Embedding of `findWordBoundaryAfter(text, startPos)` (the Boundary
Extender): if `startPos` is at or past the end of the text, or the character
there is whitespace or closing punctuation, return `startPos` unchanged;
otherwise advance to the end of the current word. -/
def findWordBoundaryAfter (text : List Char) (startPos : Nat) : Nat :=
  match text.drop startPos with
  | [] => startPos
  | c :: _ =>
    if isBoundaryChar c then startPos
    else advanceGo (text.drop startPos) startPos

/-- Embedding of one Support object from `groundingMetadata.groundingSupports`.
The optional fields mirror the optional chaining in the source
(`support.segment.text?.trim()` and `support.groundingChunkIndices || []`). -/
structure Support where
  segmentText : Option (List Char)
  groundingChunkIndices : Option (List Nat)
deriving DecidableEq

/-- Embedding of one Modification record collected by
`insertCitationMarkersInText`. -/
structure Mod where
  startPos : Nat
  endPos : Nat
  markerPos : Nat
  citationIdx : Nat
  displayIndices : List Nat
deriving DecidableEq

/-- Lookup in the `chunkIndexToDisplayIndex` map, modelled as an association
list with the JS `Map.get` semantics (`none` for `undefined`). -/
def mapLookup (map : List (Nat × Nat)) (k : Nat) : Option Nat :=
  (map.find? (fun p => p.1 == k)).map (fun p => p.2)

/-- The `citedText` local of `insertCitationMarkersInText`:
`support.segment.text?.trim() || ''`. -/
def citedTextOf (s : Support) : List Char :=
  (s.segmentText.map trimJS).getD []

/-- The `chunkIndices` local of `insertCitationMarkersInText`:
`support.groundingChunkIndices || []`. -/
def chunkIndicesOf (s : Support) : List Nat :=
  s.groundingChunkIndices.getD []

/-- The `displayIndices` local of `insertCitationMarkersInText`:
`chunkIndices.map(idx => map.get(idx)).filter(idx => idx !== undefined)`. -/
def displayIndicesOf (map : List (Nat × Nat)) (s : Support) : List Nat :=
  (chunkIndicesOf s).filterMap (mapLookup map)

/-- The body of the `groundingSupports.forEach` loop of
`insertCitationMarkersInText` for the support with citation index
`citationIdx`: the Modification pushed for it, or `none` when the support is
dropped (empty trimmed segment, empty chunk-index list, empty display-index
list, or locator miss). -/
def modOf (text : List Char) (map : List (Nat × Nat)) (citationIdx : Nat)
    (s : Support) : Option Mod :=
  let citedText := citedTextOf s
  let chunkIndices := chunkIndicesOf s
  if citedText.isEmpty || chunkIndices.isEmpty then none
  else
    let displayIndices := displayIndicesOf map s
    if displayIndices.isEmpty then none
    else
      match findCitedTextPositionAndLength text citedText with
      | some (pos, len) =>
        some { startPos := pos, endPos := pos + len,
               markerPos := findWordBoundaryAfter text (pos + len),
               citationIdx := citationIdx, displayIndices := displayIndices }
      | none => none

/-- The `modifications` array collected by the `forEach` loop, starting at
citation index `i` (the loop itself starts at `i = 0`). -/
def collectMods (text : List Char) (map : List (Nat × Nat)) :
    Nat → List Support → List Mod
  | _, [] => []
  | i, s :: rest =>
    match modOf text map i s with
    | some m => m :: collectMods text map (i + 1) rest
    | none => collectMods text map (i + 1) rest

/-- Insertion step of the descending sort of the `modifications` array
(`modifications.sort((a, b) => b.startPos - a.startPos)`, a stable sort). -/
def insertDesc (m : Mod) : List Mod → List Mod
  | [] => [m]
  | x :: xs => if x.startPos ≤ m.startPos then m :: x :: xs else x :: insertDesc m xs

/-- The sorted `modifications` array: stable sort by `startPos`
descending. -/
def sortMods (ms : List Mod) : List Mod :=
  ms.foldr insertDesc []

/-- Embedding of `s.slice(a, b)` for `0 ≤ a ≤ b` (JS slice clamps both
bounds to the string length, as `drop`/`take` do). -/
def sliceJS (s : List Char) (a b : Nat) : List Char :=
  (s.drop a).take (b - a)

/-- Decimal rendering of a number interpolated into a template literal. -/
def natStr (n : Nat) : List Char :=
  (toString n).data

/-- One marker badge:
the span produced for one display index inside the `badges` template of
`insertCitationMarkersInText`, label `escapeHtml(String(idx + 1))`. -/
def badgeFor (citationIdx dispIdx : Nat) : List Char :=
  "<span class=\"citation-marker\" data-citation-idx=\"".data ++
    natStr citationIdx ++ "\">".data ++
    escapeHtml (natStr (dispIdx + 1)) ++ "</span>".data

/-- The `marker` template of `insertCitationMarkersInText`: the wrapping
`citation-markers` span holding one badge per display index. -/
def markerFor (m : Mod) : List Char :=
  "<span class=\"citation-markers\" data-citation=\"".data ++
    natStr m.citationIdx ++ "\">".data ++
    (m.displayIndices.map (badgeFor m.citationIdx)).flatten ++ "</span>".data

/-- The `wrappedCitedText` template: the `cited-text` span wrapped around the
cited slice. -/
def wrapCited (citationIdx : Nat) (content : List Char) : List Char :=
  "<span class=\"cited-text\" data-citation=\"".data ++
    natStr citationIdx ++ "\">".data ++ content ++ "</span>".data

/-- One step of the `modifications.forEach` application loop of
`insertCitationMarkersInText`: reconstruct the text as
before + wrapped citation + between + marker + after. -/
def applyOne (m : Mod) (t : List Char) : List Char :=
  t.take m.startPos ++
    (wrapCited m.citationIdx (sliceJS t m.startPos m.endPos) ++
      (sliceJS t m.endPos m.markerPos ++
        (markerFor m ++ t.drop m.markerPos)))

/-- The whole application loop: fold `applyOne` over the modification list
(the source mutates `modifiedText` in a `forEach`, i.e. a left fold). -/
def applyMods (ms : List Mod) (t : List Char) : List Char :=
  ms.foldl (fun t m => applyOne m t) t

/-- Embedding of `insertCitationMarkersInText(text, groundingSupports,
chunkIndexToDisplayIndex)` (the Marker Inserter): collect a Modification per
surviving support, sort by `startPos` descending, and apply from the end of
the text toward the start. -/
def insertCitationMarkersInText (text : List Char) (supports : List Support)
    (map : List (Nat × Nat)) : List Char :=
  applyMods (sortMods (collectMods text map 0 supports)) text

/-- Embedding of one Chunk of `groundingMetadata.groundingChunks`: per the
data model each chunk is either a document chunk (`retrievedContext` with a
title and excerpt text) or a web chunk (`web` with a title and uri). -/
inductive Chunk where
  | doc (title text : List Char)
  | web (title uri : List Char)
deriving DecidableEq

/-- Membership in the `citedChunkIndices` set of `displaySearchResults`:
the chunk index is cited by at least one support. -/
def isCited (supports : List Support) (idx : Nat) : Bool :=
  supports.any (fun s => (chunkIndicesOf s).contains idx)

/-- The `groundingChunks.forEach` loop building `chunkIndexToDisplayIndex`:
scan the chunks front-to-back with the original-index counter `oIdx` and the
display-index counter `dIdx`, assigning the next display index to each cited
chunk. -/
def bdmGo (supports : List Support) : List Chunk → Nat → Nat → List (Nat × Nat)
  | [], _, _ => []
  | _ :: rest, oIdx, dIdx =>
    if isCited supports oIdx then
      (oIdx, dIdx) :: bdmGo supports rest (oIdx + 1) (dIdx + 1)
    else
      bdmGo supports rest (oIdx + 1) dIdx

/-- The `chunkIndexToDisplayIndex` map built by `displaySearchResults`. -/
def buildDisplayMap (chunks : List Chunk) (supports : List Support) :
    List (Nat × Nat) :=
  bdmGo supports chunks 0 0

/-- One sidebar entry produced by `createCitationItem` (only the fields the
claims are about; the title-defaulting of missing titles to a placeholder
string does not affect which entries exist). -/
structure SidebarEntry where
  displayIdx : Nat
  originalIdx : Nat
  title : List Char
  isWeb : Bool
deriving DecidableEq

/-- The sidebar-building `groundingChunks.forEach` loop of
`displaySearchResults`: skip uncited chunks; for each cited chunk create one
entry (document branch for `retrievedContext` chunks, web branch for `web`
chunks) and advance the `sourceDisplayIdx` counter. -/
def sidebarGo (supports : List Support) :
    List Chunk → Nat → Nat → List SidebarEntry
  | [], _, _ => []
  | c :: rest, oIdx, sIdx =>
    if isCited supports oIdx then
      (match c with
       | Chunk.doc title _ =>
         { displayIdx := sIdx, originalIdx := oIdx, title := title, isWeb := false }
       | Chunk.web title _ =>
         { displayIdx := sIdx, originalIdx := oIdx, title := title, isWeb := true }) ::
        sidebarGo supports rest (oIdx + 1) (sIdx + 1)
    else
      sidebarGo supports rest (oIdx + 1) sIdx

/-- The full sidebar list rendered by `displaySearchResults`. -/
def sidebarEntries (chunks : List Chunk) (supports : List Support) :
    List SidebarEntry :=
  sidebarGo supports chunks 0 0

/-- The value of `window.citationState.stickyMode`: the JS value is the
string `'marker'` or `'source'` (truthy) or `null` (falsy), modelled as
`Option StickyMode`. -/
inductive StickyMode where
  | marker
  | source
deriving DecidableEq

/-- Embedding of `window.citationState`. -/
structure CitationState where
  stickyMode : Option StickyMode
  stickyCitationIdx : Option Nat
  stickySourceIdx : Option Nat
deriving DecidableEq

/-- The object assigned to `window.citationState` by `displaySearchResults`:
all three fields `null`. -/
def initialCitationState : CitationState :=
  { stickyMode := none, stickyCitationIdx := none, stickySourceIdx := none }

/-- The highlight classes currently applied to the document, abstracted:
highlighting citation `c` stands for the `highlighted` class on citation
`c`'s markers, cited-text spans and its sidebar sources; highlighting source
`o` stands for the class on source `o`'s entry and every citation
referencing it. -/
inductive Highlight where
  | citation (citationIdx : Nat)
  | source (originalIdx : Nat)
deriving DecidableEq

/-- The UI state read and written by the interaction handlers: the sticky
state, the current highlight (if any), and the list of display indices whose
sidebar `details` elements are open. -/
structure UIState where
  citationState : CitationState
  highlight : Option Highlight
  openDetails : List Nat
deriving DecidableEq

/-- Embedding of `handleMarkerHover(citationIdx)`: a no-op while
`window.citationState?.stickyMode` is truthy, otherwise highlight the
citation (no scroll, no expand). -/
def handleMarkerHover (citationIdx : Nat) (ui : UIState) : UIState :=
  if ui.citationState.stickyMode.isSome then ui
  else { ui with highlight := some (Highlight.citation citationIdx) }

/-- Embedding of `handleMarkerLeave(citationIdx)`: a no-op while sticky,
otherwise clear all highlights. -/
def handleMarkerLeave (_citationIdx : Nat) (ui : UIState) : UIState :=
  if ui.citationState.stickyMode.isSome then ui
  else { ui with highlight := none }

/-- Embedding of `handleSourceHover(originalIdx)`: a no-op while sticky,
otherwise highlight the source and its citations. -/
def handleSourceHover (originalIdx : Nat) (ui : UIState) : UIState :=
  if ui.citationState.stickyMode.isSome then ui
  else { ui with highlight := some (Highlight.source originalIdx) }

/-- Embedding of `handleSourceLeave(originalIdx)`: a no-op while sticky,
otherwise clear all highlights. -/
def handleSourceLeave (_originalIdx : Nat) (ui : UIState) : UIState :=
  if ui.citationState.stickyMode.isSome then ui
  else { ui with highlight := none }

/-- Embedding of `handleMarkerClick(event, citationIdx)`.  `c2d` is the
`window.citationToDisplayIndices` map (the display indices whose sidebar
entries the click expands).  Clicking the marker of the currently sticky
citation clears the sticky mode, closes all details and clears highlights
(leaving `stickySourceIdx` as it was, exactly as the source does); any other
click closes previous details, sets marker-sticky state on this citation and
highlights it with its sources expanded. -/
def handleMarkerClick (c2d : Nat → List Nat) (citationIdx : Nat)
    (ui : UIState) : UIState :=
  if ui.citationState.stickyMode = some StickyMode.marker ∧
      ui.citationState.stickyCitationIdx = some citationIdx then
    { citationState :=
        { stickyMode := none, stickyCitationIdx := none,
          stickySourceIdx := ui.citationState.stickySourceIdx },
      highlight := none, openDetails := [] }
  else
    { citationState :=
        { stickyMode := some StickyMode.marker,
          stickyCitationIdx := some citationIdx, stickySourceIdx := none },
      highlight := some (Highlight.citation citationIdx),
      openDetails := c2d citationIdx }

/-- Embedding of `groundingMetadata`: the source guards on
`groundingMetadata?.groundingChunks` and `?.groundingSupports`; the wire
object carries both sequences. -/
structure GroundingMetadata where
  groundingChunks : List Chunk
  groundingSupports : List Support
deriving DecidableEq

/-- Embedding of a SearchResult, the argument of `displaySearchResults`.
An absent `text` field and an empty `text` string are both falsy in the
source's `!result.text` guard, so `text` is modelled as the (possibly
empty) string. -/
structure SearchResult where
  text : List Char
  groundingMetadata : Option GroundingMetadata
deriving DecidableEq

/-- One rendered pane (the answer area or the citations sidebar). -/
inductive Pane where
  | emptyState (msg : List Char)
  | answer (markup : List Char)
  | citations (entries : List SidebarEntry)
deriving DecidableEq

/-- The source's `!result || !result.text` guard. -/
def resultDisplayable (result : Option SearchResult) : Bool :=
  match result with
  | none => false
  | some r => !r.text.isEmpty

/-- Embedding of `displaySearchResults(result)` (the render entry point),
returning the new UI state, the answer pane and the citations pane.  A
malformed or empty result takes the early-return branch: both panes become
empty-state placeholders and the function returns before the statement that
resets `window.citationState`, so the interaction state is left as it was.
A displayable result resets the interaction state, builds the display-index
map, annotates the text (when grounding supports exist) and renders one
sidebar entry per cited chunk (when grounding metadata exists).  The
downstream markdown parse and sanitisation of the annotated text are not
modelled; the answer pane carries the annotated text fed to them. -/
def displaySearchResults (result : Option SearchResult) (ui : UIState) :
    UIState × Pane × Pane :=
  match result with
  | none =>
    (ui, Pane.emptyState "No results found".data,
      Pane.emptyState "No citations available".data)
  | some r =>
    if r.text.isEmpty then
      (ui, Pane.emptyState "No results found".data,
        Pane.emptyState "No citations available".data)
    else
      let ui' := { ui with citationState := initialCitationState }
      let answerText :=
        match r.groundingMetadata with
        | some md =>
          insertCitationMarkersInText r.text md.groundingSupports
            (buildDisplayMap md.groundingChunks md.groundingSupports)
        | none => r.text
      let citationsPane :=
        match r.groundingMetadata with
        | some md =>
          Pane.citations (sidebarEntries md.groundingChunks md.groundingSupports)
        | none => Pane.emptyState "No citations available".data
      (ui', Pane.answer answerText, citationsPane)

/-- A concrete UI state that is marker-sticky on citation 2 (used by
concrete instantiations below). -/
def uiSticky2 : UIState :=
  { citationState :=
      { stickyMode := some StickyMode.marker, stickyCitationIdx := some 2,
        stickySourceIdx := none },
    highlight := none, openDetails := [] }

/-- The spec's five-chunk instance: five grounding chunks. -/
def chunks5 : List Chunk :=
  [Chunk.doc "A".data "ta".data, Chunk.doc "B".data "tb".data,
   Chunk.doc "C".data "tc".data, Chunk.web "D".data "ud".data,
   Chunk.doc "E".data "te".data]

/-- The spec's five-chunk instance: supports citing only original indices
0, 3 and 4. -/
def supports5 : List Support :=
  [{ segmentText := some "s one".data, groundingChunkIndices := some [0, 3] },
   { segmentText := some "s two".data, groundingChunkIndices := some [4, 0] }]

/-- A concrete 26-character text for instantiating the Marker Inserter's
frame property. -/
def textW : List Char := "abcdefghijklmnopqrstuvwxyz".data

/-- A concrete located modification earlier in `textW` (start 5). -/
def modW1 : Mod :=
  { startPos := 5, endPos := 9, markerPos := 10, citationIdx := 0,
    displayIndices := [0] }

/-- A concrete located modification later in `textW` (start 20). -/
def modW2 : Mod :=
  { startPos := 20, endPos := 23, markerPos := 24, citationIdx := 1,
    displayIndices := [1] }

/-! Theorems settling the claims. -/

/-- A string none of whose characters get encoded is a fixed point of
`escapeHtml`. -/
theorem escapeHtml_fixed_of_unencoded (s : List Char)
    (h : ∀ c ∈ s, escapeChar c = [c]) : escapeHtml s = s := by
  induction s with
  | nil => rfl
  | cons c t ih =>
    have hc := h c (by simp)
    have ht := ih (fun x hx => h x (by simp [hx]))
    simp [escapeHtml] at ht ⊢
    simp [hc, ht]

/-- C1, counterexample: escaping is not idempotent on the code's
`escapeHtml`; the single character `&` escapes to `&amp;`, whose escape is
`&amp;amp;`, so escaping twice differs from escaping once. -/
theorem escapeHtml_not_idempotent_on_amp :
    escapeHtml (escapeHtml "&".data) ≠ escapeHtml "&".data := by decide

/-- C1, amended: escaping twice equals escaping once for every string that
contains no character the escaper encodes (no ampersand, angle bracket or
no-break space); on such strings escaping is the identity.  In general
`escapeHtml` double-encodes already-escaped entities. -/
theorem escapeHtml_idempotent_on_unencoded (s : List Char)
    (h : ∀ c ∈ s, escapeChar c = [c]) :
    escapeHtml (escapeHtml s) = escapeHtml s := by
  have hf := escapeHtml_fixed_of_unencoded s h
  rw [hf]
  exact hf

/-- Witness for C1 at the concrete string `hello`. -/
theorem escapeHtml_idempotent_on_unencoded_witness :
    (∀ c ∈ "hello".data, escapeChar c = [c]) ∧
      escapeHtml (escapeHtml "hello".data) = escapeHtml "hello".data :=
  ⟨by decide, escapeHtml_idempotent_on_unencoded "hello".data (by decide)⟩

/-- C2, counterexample: the spec's first worked example fails on the code:
`findWordBoundaryAfter("the foxes run", 7)` returns 9 (the offset of the
space just past `foxes`), not 10. -/
theorem findWordBoundaryAfter_spec_example_fails :
    findWordBoundaryAfter "the foxes run".data 7 ≠ 10 := by decide

/-- C2, amended: `findWordBoundaryAfter("the foxes run", 7)` returns 9 (the
first offset past the word `foxes`); `findWordBoundaryAfter("the fox.", 7)`
returns 7 unchanged; and whenever the position is at or past end-of-text,
or the character there is whitespace or one of `. , ; : ! ? ) ]`, the input
position is returned unchanged. -/
theorem findWordBoundaryAfter_amended :
    findWordBoundaryAfter "the foxes run".data 7 = 9 ∧
    findWordBoundaryAfter "the fox.".data 7 = 7 ∧
    (∀ (text : List Char) (pos : Nat), text.length ≤ pos →
      findWordBoundaryAfter text pos = pos) ∧
    (∀ (text : List Char) (pos : Nat) (c : Char) (rest : List Char),
      text.drop pos = c :: rest → isBoundaryChar c = true →
      findWordBoundaryAfter text pos = pos) := by
  refine ⟨by decide, by decide, ?_, ?_⟩
  · intro text pos h
    have hd : text.drop pos = [] := List.drop_eq_nil_iff.mpr h
    simp [findWordBoundaryAfter, hd]
  · intro text pos c rest hd hb
    simp [findWordBoundaryAfter, hd, hb]

/-- Witness for C2's universally quantified parts: the past-end case on the
two-character string `ab` at position 5, and the boundary-character case on
`a.c` at position 1 (a period). -/
theorem findWordBoundaryAfter_amended_witness :
    ("ab".data.length ≤ 5 ∧ findWordBoundaryAfter "ab".data 5 = 5) ∧
      ("a.c".data.drop 1 = '.' :: ['c'] ∧ isBoundaryChar '.' = true ∧
        findWordBoundaryAfter "a.c".data 1 = 1) :=
  ⟨⟨by decide, findWordBoundaryAfter_amended.2.2.1 "ab".data 5 (by decide)⟩,
   ⟨by decide, by decide,
     findWordBoundaryAfter_amended.2.2.2 "a.c".data 1 '.' ['c'] (by decide) (by decide)⟩⟩

/-- C6: the marker-click step satisfies the sticky-toggle law.  Clicking the
marker of citation `c` while already marker-sticky on `c` yields the idle
state (`stickyMode` and `stickyCitationIdx` cleared); from any other state
it yields marker-sticky on `c` with `stickySourceIdx` cleared, in one step
(in particular clicking marker 3 while sticky on 2 goes directly to sticky
on 3). -/
theorem stickyToggle (c2d : Nat → List Nat) (c : Nat) (ui : UIState) :
    ((ui.citationState.stickyMode = some StickyMode.marker ∧
      ui.citationState.stickyCitationIdx = some c) →
      (handleMarkerClick c2d c ui).citationState.stickyMode = none ∧
      (handleMarkerClick c2d c ui).citationState.stickyCitationIdx = none) ∧
    (¬(ui.citationState.stickyMode = some StickyMode.marker ∧
       ui.citationState.stickyCitationIdx = some c) →
      (handleMarkerClick c2d c ui).citationState =
        { stickyMode := some StickyMode.marker, stickyCitationIdx := some c,
          stickySourceIdx := none }) := by
  constructor
  · intro h
    simp [handleMarkerClick, h]
  · intro h
    simp [handleMarkerClick, h]

/-- Witness for C6: from marker-sticky on citation 2, clicking marker 2
toggles off, and clicking marker 3 transitions directly to marker-sticky
on 3. -/
theorem stickyToggle_witness :
    ((uiSticky2.citationState.stickyMode = some StickyMode.marker ∧
      uiSticky2.citationState.stickyCitationIdx = some 2) ∧
      (handleMarkerClick (fun _ => []) 2 uiSticky2).citationState.stickyMode = none ∧
      (handleMarkerClick (fun _ => []) 2 uiSticky2).citationState.stickyCitationIdx = none) ∧
    (¬(uiSticky2.citationState.stickyMode = some StickyMode.marker ∧
       uiSticky2.citationState.stickyCitationIdx = some 3) ∧
      (handleMarkerClick (fun _ => []) 3 uiSticky2).citationState =
        { stickyMode := some StickyMode.marker, stickyCitationIdx := some 3,
          stickySourceIdx := none }) :=
  ⟨⟨⟨by decide, by decide⟩,
    (stickyToggle (fun _ => []) 2 uiSticky2).1 ⟨by decide, by decide⟩⟩,
   ⟨by decide, (stickyToggle (fun _ => []) 3 uiSticky2).2 (by decide)⟩⟩

/-- C7: while any sticky mode is active, every hover-enter and hover-leave
handler (marker or sidebar source) is the identity on the UI state: neither
the interaction state nor the set of highlighted elements changes. -/
theorem hoverSuppressedUnderSticky (c o : Nat) (ui : UIState)
    (h : ui.citationState.stickyMode ≠ none) :
    handleMarkerHover c ui = ui ∧ handleMarkerLeave c ui = ui ∧
    handleSourceHover o ui = ui ∧ handleSourceLeave o ui = ui := by
  have hs : ui.citationState.stickyMode.isSome = true :=
    Option.ne_none_iff_isSome.mp h
  simp [handleMarkerHover, handleMarkerLeave, handleSourceHover,
    handleSourceLeave, hs]

/-- Witness for C7: while marker-sticky on citation 2, hovering (and
unhovering) marker 0 and source entry 1 are all no-ops. -/
theorem hoverSuppressedUnderSticky_witness :
    uiSticky2.citationState.stickyMode ≠ none ∧
      (handleMarkerHover 0 uiSticky2 = uiSticky2 ∧
       handleMarkerLeave 0 uiSticky2 = uiSticky2 ∧
       handleSourceHover 1 uiSticky2 = uiSticky2 ∧
       handleSourceLeave 1 uiSticky2 = uiSticky2) :=
  ⟨by decide, hoverSuppressedUnderSticky 0 1 uiSticky2 (by decide)⟩

/-- C9, counterexample: on a malformed result (present but with no text) the
render entry point returns through the early empty-state branch before the
statement that resets `window.citationState`, so a prior sticky state
survives: the claim's reset does not happen in the malformed case. -/
theorem displaySearchResults_no_reset_on_malformed :
    (displaySearchResults (some { text := [], groundingMetadata := none })
        uiSticky2).1.citationState.stickyMode ≠ none := by decide

/-- C9, amended: every call of the render entry point with a displayable
result (a result that is present and has nonempty text) resets the
interaction state to sticky mode none with both sticky indices null; for a
malformed or empty result the call renders empty-state placeholders for
both the answer and the citations pane and leaves the interaction state
unchanged (and, being a total function, surfaces no exception). -/
theorem displaySearchResults_reset_amended (result : Option SearchResult)
    (ui : UIState) :
    (resultDisplayable result = false →
      displaySearchResults result ui =
        (ui, Pane.emptyState "No results found".data,
          Pane.emptyState "No citations available".data)) ∧
    (resultDisplayable result = true →
      (displaySearchResults result ui).1.citationState = initialCitationState) := by
  match result with
  | none =>
    exact ⟨fun _ => rfl, fun h => by simp [resultDisplayable] at h⟩
  | some r =>
    constructor
    · intro h
      simp [resultDisplayable] at h
      simp [displaySearchResults, h]
    · intro h
      simp [resultDisplayable] at h
      simp [displaySearchResults, h]

/-- Witness for C9: a malformed result (empty text) from a sticky state
renders the two placeholders and keeps the state; a valid result resets the
interaction state. -/
theorem displaySearchResults_reset_amended_witness :
    (resultDisplayable (some { text := [], groundingMetadata := none }) = false ∧
      displaySearchResults (some { text := [], groundingMetadata := none }) uiSticky2 =
        (uiSticky2, Pane.emptyState "No results found".data,
          Pane.emptyState "No citations available".data)) ∧
    (resultDisplayable (some { text := "hi".data, groundingMetadata := none }) = true ∧
      (displaySearchResults (some { text := "hi".data, groundingMetadata := none })
          uiSticky2).1.citationState = initialCitationState) :=
  ⟨⟨by decide,
    (displaySearchResults_reset_amended
      (some { text := [], groundingMetadata := none }) uiSticky2).1 (by decide)⟩,
   ⟨by decide,
    (displaySearchResults_reset_amended
      (some { text := "hi".data, groundingMetadata := none }) uiSticky2).2 (by decide)⟩⟩

/-- C10: the Marker Inserter is the identity whenever no support produces a
Modification: on an empty support list, and on any support list whose
collected modification list is empty (every support dropped), the annotated
text equals the input text. -/
theorem markerInserter_identity (text : List Char) (map : List (Nat × Nat))
    (supports : List Support) :
    insertCitationMarkersInText text [] map = text ∧
    (collectMods text map 0 supports = [] →
      insertCitationMarkersInText text supports map = text) := by
  constructor
  · rfl
  · intro h
    unfold insertCitationMarkersInText
    rw [h]
    rfl

/-- Witness for C10: three supports that are dropped for three different
reasons (whitespace-only segment, absent chunk indices, unmapped chunk
index) collect no modifications, and the inserter returns the text
unchanged. -/
theorem markerInserter_identity_witness :
    collectMods "hello world".data [(0, 0)] 0
        [{ segmentText := some "   ".data, groundingChunkIndices := some [0] },
         { segmentText := some "xyz".data, groundingChunkIndices := none },
         { segmentText := some "zap".data, groundingChunkIndices := some [5] }] = [] ∧
      insertCitationMarkersInText "hello world".data
        [{ segmentText := some "   ".data, groundingChunkIndices := some [0] },
         { segmentText := some "xyz".data, groundingChunkIndices := none },
         { segmentText := some "zap".data, groundingChunkIndices := some [5] }]
        [(0, 0)] = "hello world".data :=
  ⟨by decide,
   (markerInserter_identity "hello world".data [(0, 0)]
      [{ segmentText := some "   ".data, groundingChunkIndices := some [0] },
       { segmentText := some "xyz".data, groundingChunkIndices := none },
       { segmentText := some "zap".data, groundingChunkIndices := some [5] }]).2
     (by decide)⟩

/-- C8: a support whose segment trims to empty, whose chunk-index list is
empty, whose mapped display-index list is empty, or whose segment the Text
Locator fails to find contributes no Modification (hence no marker), and the
collection loop continues over the remaining supports exactly as it would
have, with their citation indices unchanged (and, being total, raises no
error). -/
theorem supportFailurePolicy (text : List Char) (map : List (Nat × Nat))
    (i : Nat) (s : Support) (rest : List Support)
    (h : citedTextOf s = [] ∨ chunkIndicesOf s = [] ∨
      displayIndicesOf map s = [] ∨
      findCitedTextPositionAndLength text (citedTextOf s) = none) :
    modOf text map i s = none ∧
    collectMods text map i (s :: rest) = collectMods text map (i + 1) rest := by
  have hnone : modOf text map i s = none := by
    unfold modOf
    rcases h with h | h | h | h
    · simp [h]
    · simp [h]
    · simp [h]
    · simp [h]
  exact ⟨hnone, by simp [collectMods, hnone]⟩

/-- Witness for C8: a support whose segment `zzz` the locator cannot find in
`hello` is dropped, while the following support is still processed at its
original citation index. -/
theorem supportFailurePolicy_witness :
    findCitedTextPositionAndLength "hello".data
        (citedTextOf { segmentText := some "zzz".data, groundingChunkIndices := some [0] }) =
      none ∧
    modOf "hello".data [(0, 0)] 0
        { segmentText := some "zzz".data, groundingChunkIndices := some [0] } = none ∧
    collectMods "hello".data [(0, 0)] 0
        [{ segmentText := some "zzz".data, groundingChunkIndices := some [0] },
         { segmentText := some "hello".data, groundingChunkIndices := some [0] }] =
      collectMods "hello".data [(0, 0)] 1
        [{ segmentText := some "hello".data, groundingChunkIndices := some [0] }] :=
  ⟨by decide,
   supportFailurePolicy "hello".data [(0, 0)] 0
     { segmentText := some "zzz".data, groundingChunkIndices := some [0] }
     [{ segmentText := some "hello".data, groundingChunkIndices := some [0] }]
     (Or.inr (Or.inr (Or.inr (by decide))))⟩

/-- C4: the Text Locator returns, for a cited excerpt that occurs verbatim,
the first occurrence with the excerpt's own length; when the verbatim search
fails and the markdown-stripped cleaned excerpt matches (exactly, or
case-insensitively after lowercasing both sides), the result carries the
cleaned string's length, not the original excerpt's. -/
theorem locator_exactness (text cited : List Char) :
    (∀ p, findSubstr text cited = some p →
      findCitedTextPositionAndLength text cited = some (p, cited.length)) ∧
    (findSubstr text cited = none →
      ∀ p, findSubstr text (cleanCited cited) = some p →
        findCitedTextPositionAndLength text cited =
          some (p, (cleanCited cited).length)) ∧
    (findSubstr text cited = none →
      findSubstr text (cleanCited cited) = none →
      ∀ p, findSubstr (text.map Char.toLower)
          ((cleanCited cited).map Char.toLower) = some p →
        findCitedTextPositionAndLength text cited =
          some (p, (cleanCited cited).length)) := by
  refine ⟨?_, ?_, ?_⟩
  · intro p h
    simp [findCitedTextPositionAndLength, h]
  · intro h1 p h2
    simp [findCitedTextPositionAndLength, h1, h2]
  · intro h1 h2 p h3
    simp [findCitedTextPositionAndLength, h1, h2, h3]

/-- Witness for C4, covering all three branches at concrete inputs: a
verbatim excerpt, an excerpt matching only after markdown stripping, and an
excerpt matching only case-insensitively after stripping. -/
theorem locator_exactness_witness :
    (findSubstr "abc".data "b".data = some 1 ∧
      findCitedTextPositionAndLength "abc".data "b".data = some (1, 1)) ∧
    (findSubstr "The quick fox".data "**quick** fox".data = none ∧
      findSubstr "The quick fox".data (cleanCited "**quick** fox".data) = some 4 ∧
      findCitedTextPositionAndLength "The quick fox".data "**quick** fox".data =
        some (4, (cleanCited "**quick** fox".data).length)) ∧
    (findSubstr "The Quick fox".data "**quick** fox".data = none ∧
      findSubstr "The Quick fox".data (cleanCited "**quick** fox".data) = none ∧
      findSubstr ("The Quick fox".data.map Char.toLower)
          ((cleanCited "**quick** fox".data).map Char.toLower) = some 4 ∧
      findCitedTextPositionAndLength "The Quick fox".data "**quick** fox".data =
        some (4, (cleanCited "**quick** fox".data).length)) :=
  ⟨⟨by decide, (locator_exactness "abc".data "b".data).1 1 (by decide)⟩,
   ⟨by decide, by decide,
    (locator_exactness "The quick fox".data "**quick** fox".data).2.1
      (by decide) 4 (by decide)⟩,
   ⟨by decide, by decide, by decide,
    (locator_exactness "The Quick fox".data "**quick** fox".data).2.2
      (by decide) (by decide) 4 (by decide)⟩⟩

/-- Lookup into a consed association list. -/
theorem mapLookup_cons (k v i : Nat) (m : List (Nat × Nat)) :
    mapLookup ((k, v) :: m) i = if k = i then some v else mapLookup m i := by
  by_cases h : k = i
  · simp [mapLookup, List.find?_cons, h]
  · simp [mapLookup, List.find?_cons, h]

/-- The display-index scan builds, from original-index counter `o` and
display-index counter `d`, exactly the cited indices of `[o, o + len)`
paired with consecutive display indices starting at `d`. -/
theorem bdmGo_spec (supports : List Support) :
    ∀ (chunks : List Chunk) (o d : Nat),
      bdmGo supports chunks o d =
        (((List.range' o chunks.length).filter
            (fun i => isCited supports i)).enumFrom d).map
          (fun p => (p.2, p.1)) := by
  intro chunks
  induction chunks with
  | nil => intro o d; simp [bdmGo]
  | cons c rest ih =>
    intro o d
    cases hc : isCited supports o with
    | true =>
      simp [bdmGo, hc, List.range'_succ, List.filter_cons, ih]
    | false =>
      simp [bdmGo, hc, List.range'_succ, List.filter_cons, ih]

/-- Lookup in the display-index scan is defined exactly on the cited
indices within the scanned window. -/
theorem bdmGo_lookup (supports : List Support) :
    ∀ (chunks : List Chunk) (o d i : Nat),
      ((mapLookup (bdmGo supports chunks o d) i).isSome = true ↔
        (isCited supports i = true ∧ o ≤ i ∧ i < o + chunks.length)) := by
  intro chunks
  induction chunks with
  | nil =>
    intro o d i
    simp [bdmGo, mapLookup]
  | cons c rest ih =>
    intro o d i
    cases hc : isCited supports o with
    | true =>
      rw [show bdmGo supports (c :: rest) o d =
            (o, d) :: bdmGo supports rest (o + 1) (d + 1) by simp [bdmGo, hc]]
      rw [mapLookup_cons]
      by_cases hoi : o = i
      · subst hoi
        simp [hc]
      · rw [if_neg hoi, ih]
        constructor
        · rintro ⟨h1, h2, h3⟩
          exact ⟨h1, by omega, by simp; omega⟩
        · rintro ⟨h1, h2, h3⟩
          refine ⟨h1, by omega, by simp at h3; omega⟩
    | false =>
      rw [show bdmGo supports (c :: rest) o d =
            bdmGo supports rest (o + 1) d by simp [bdmGo, hc]]
      rw [ih]
      constructor
      · rintro ⟨h1, h2, h3⟩
        exact ⟨h1, by omega, by simp; omega⟩
      · rintro ⟨h1, h2, h3⟩
        have hio : i ≠ o := by
          intro he
          rw [he] at h1
          rw [h1] at hc
          cases hc
        refine ⟨h1, by omega, by simp at h3; omega⟩

/-- The sidebar loop produces entries whose (original index, display index)
pairs are exactly the display-index map built by the same scan. -/
theorem sidebarGo_pairs (supports : List Support) :
    ∀ (chunks : List Chunk) (o d : Nat),
      (sidebarGo supports chunks o d).map (fun e => (e.originalIdx, e.displayIdx)) =
        bdmGo supports chunks o d := by
  intro chunks
  induction chunks with
  | nil => intro o d; rfl
  | cons c rest ih =>
    intro o d
    cases hc : isCited supports o with
    | true => cases c <;> simp [sidebarGo, bdmGo, hc, ih]
    | false => cases c <;> simp [sidebarGo, bdmGo, hc, ih]

/-- A chunk index cited by some support is an element of some support's
chunk-index list. -/
theorem isCited_bound (supports : List Support) (n i : Nat)
    (h : ∀ j ∈ (supports.map chunkIndicesOf).flatten, j < n)
    (hc : isCited supports i = true) : i < n := by
  have hex : ∃ s, s ∈ supports ∧ (chunkIndicesOf s).contains i = true := by
    simpa [isCited, List.any_eq_true] using hc
  obtain ⟨s, hs, hcont⟩ := hex
  have hmem : i ∈ chunkIndicesOf s := by
    simpa using hcont
  exact h i (List.mem_flatten.mpr ⟨chunkIndicesOf s, List.mem_map.mpr ⟨s, hs, rfl⟩, hmem⟩)

/-- C3: when every cited chunk index is in range, the display-index map is
defined over exactly the cited indices, listing them in order of first
appearance in the chunk scan with compact display indices 0, 1, …; the
sidebar renders exactly one entry per mapped chunk, with matching original
and display indices.  For the spec's instance of five chunks with cited set
0, 3, 4 the map is 0 to 0, 3 to 1, 4 to 2, in that order, and exactly three
sidebar entries are produced. -/
theorem displayIndex_compaction :
    (∀ (chunks : List Chunk) (supports : List Support),
      (∀ j ∈ (supports.map chunkIndicesOf).flatten, j < chunks.length) →
      (buildDisplayMap chunks supports =
          (((List.range chunks.length).filter
              (fun i => isCited supports i)).enum).map (fun p => (p.2, p.1)) ∧
        (∀ i, (mapLookup (buildDisplayMap chunks supports) i).isSome = true ↔
          isCited supports i = true) ∧
        (sidebarEntries chunks supports).map
            (fun e => (e.originalIdx, e.displayIdx)) =
          buildDisplayMap chunks supports)) ∧
    (buildDisplayMap chunks5 supports5 = [(0, 0), (3, 1), (4, 2)] ∧
      (sidebarEntries chunks5 supports5).length = 3) := by
  constructor
  · intro chunks supports h
    refine ⟨?_, ?_, ?_⟩
    · rw [buildDisplayMap, bdmGo_spec, List.range_eq_range']
      rfl
    · intro i
      rw [buildDisplayMap, bdmGo_lookup]
      constructor
      · rintro ⟨h1, -, -⟩
        exact h1
      · intro h1
        exact ⟨h1, Nat.zero_le i, by simpa using isCited_bound supports chunks.length i h h1⟩
    · exact sidebarGo_pairs supports chunks 0 0
  · exact ⟨by decide, by decide⟩

/-- Witness for C3 at the spec's five-chunk instance. -/
theorem displayIndex_compaction_witness :
    (∀ j ∈ (supports5.map chunkIndicesOf).flatten, j < chunks5.length) ∧
      ((mapLookup (buildDisplayMap chunks5 supports5) 3).isSome = true ↔
        isCited supports5 3 = true) ∧
      (sidebarEntries chunks5 supports5).map
          (fun e => (e.originalIdx, e.displayIdx)) =
        buildDisplayMap chunks5 supports5 :=
  ⟨by decide,
   (displayIndex_compaction.1 chunks5 supports5 (by decide)).2.1 3,
   (displayIndex_compaction.1 chunks5 supports5 (by decide)).2.2⟩

/-- Prefix congruence: two lists agreeing on a prefix of length `K` agree on
every shorter prefix. -/
theorem take_congr (t u : List Char) (n K : Nat) (hn : n ≤ K)
    (h : t.take K = u.take K) : t.take n = u.take n := by
  calc t.take n = (t.take K).take n := by
        rw [List.take_take, Nat.min_eq_left hn]
    _ = (u.take K).take n := by rw [h]
    _ = u.take n := by rw [List.take_take, Nat.min_eq_left hn]

/-- Slice congruence: two lists agreeing on a prefix of length `K` have
equal slices below `K`. -/
theorem sliceJS_congr (t u : List Char) (a b K : Nat) (hb : b ≤ K)
    (h : t.take K = u.take K) : sliceJS t a b = sliceJS u a b := by
  by_cases hab : a ≤ b
  · have hsum : a + (b - a) = b := by omega
    unfold sliceJS
    rw [List.take_drop, List.take_drop, hsum]
    rw [take_congr t u b K hb h]
  · have hz : b - a = 0 := by omega
    simp [sliceJS, hz]

/-- One application step keeps every prefix below its `startPos`
unchanged. -/
theorem applyOne_take (m : Mod) (t : List Char) (n : Nat)
    (h1 : n ≤ m.startPos) (h2 : n ≤ t.length) :
    (applyOne m t).take n = t.take n := by
  have h3 : n ≤ (t.take m.startPos).length := by
    simp only [List.length_take]
    exact Nat.le_min.mpr ⟨h1, h2⟩
  unfold applyOne
  rw [List.take_append_eq_append_take, Nat.sub_eq_zero_of_le h3]
  simp [List.take_take, Nat.min_eq_left h1]

/-- Decomposition of a list into prefix, two middle slices and suffix. -/
theorem seg_decomp (t : List Char) (s e k : Nat) (hse : s ≤ e) (hek : e ≤ k) :
    t.take s ++ (sliceJS t s e ++ (sliceJS t e k ++ t.drop k)) = t := by
  have h1 : t.drop k = (t.drop e).drop (k - e) := by
    rw [List.drop_drop]
    congr 1
    omega
  have h2 : t.drop e = (t.drop s).drop (e - s) := by
    rw [List.drop_drop]
    congr 1
    omega
  unfold sliceJS
  rw [h1, List.take_append_drop, h2, List.take_append_drop, List.take_append_drop]

/-- One application step never shortens the text. -/
theorem applyOne_length (m : Mod) (t : List Char)
    (hse : m.startPos ≤ m.endPos) (hek : m.endPos ≤ m.markerPos) :
    t.length ≤ (applyOne m t).length := by
  have hd := seg_decomp t m.startPos m.endPos m.markerPos hse hek
  have hl : t.length =
      (t.take m.startPos ++ (sliceJS t m.startPos m.endPos ++
        (sliceJS t m.endPos m.markerPos ++ t.drop m.markerPos))).length := by
    rw [hd]
  rw [hl]
  simp only [applyOne, wrapCited, List.length_append]
  omega

/-- Folding any list of modifications whose start positions all lie at or
beyond `B` (with ordered fields) preserves both the length bound and the
prefix of length `B` of the original text. -/
theorem applyMods_take (text : List Char) (B : Nat) :
    ∀ (L : List Mod) (t : List Char),
      (∀ m ∈ L, B ≤ m.startPos ∧ m.startPos ≤ m.endPos ∧ m.endPos ≤ m.markerPos) →
      text.length ≤ t.length → B ≤ text.length → t.take B = text.take B →
      text.length ≤ (applyMods L t).length ∧
        (applyMods L t).take B = text.take B := by
  intro L
  induction L with
  | nil =>
    intro t h hlen hB ht
    exact ⟨hlen, ht⟩
  | cons m L ih =>
    intro t h hlen hB ht
    have hm := h m (by simp)
    have h1 : t.length ≤ (applyOne m t).length :=
      applyOne_length m t hm.2.1 hm.2.2
    have h2 : (applyOne m t).take B = text.take B := by
      rw [applyOne_take m t B hm.1 (Nat.le_trans hB hlen)]
      exact ht
    have hrec := ih (applyOne m t) (fun x hx => h x (by simp [hx]))
      (Nat.le_trans hlen h1) hB h2
    exact hrec

/-- C5: in the Marker Inserter's application fold over modifications sorted
by `startPos` descending with pairwise disjoint nonempty
start-to-marker ranges lying inside the text, each fold step sees the text
before its modification's `startPos`, the wrapped span itself, and the gap
between `endPos` and `markerPos` exactly as in the original text; hence a
span located earlier in the text (for example at start position 5) is
wrapped around exactly its original content, unaffected by insertions
already made for spans located later (for example at start position 20). -/
theorem markerInserter_frame (text : List Char) (ms : List Mod)
    (hb : ∀ m ∈ ms, m.startPos ≤ m.endPos ∧ m.endPos ≤ m.markerPos ∧
      m.markerPos ≤ text.length ∧ m.startPos < m.markerPos)
    (hsort : List.Pairwise (fun a b => b.startPos ≤ a.startPos) ms)
    (hdisj : List.Pairwise
      (fun a b => a.markerPos ≤ b.startPos ∨ b.markerPos ≤ a.startPos) ms) :
    ∀ (pre : List Mod) (m : Mod) (post : List Mod), ms = pre ++ m :: post →
      (applyMods pre text).take m.startPos = text.take m.startPos ∧
      sliceJS (applyMods pre text) m.startPos m.endPos =
        sliceJS text m.startPos m.endPos ∧
      sliceJS (applyMods pre text) m.endPos m.markerPos =
        sliceJS text m.endPos m.markerPos := by
  intro pre m post hms
  subst hms
  have hbm := hb m (by simp)
  have hkey : ∀ a ∈ pre, m.markerPos ≤ a.startPos := by
    intro a ha
    have hmem : m ∈ m :: post := by simp
    have hs : m.startPos ≤ a.startPos :=
      (List.pairwise_append.mp hsort).2.2 a ha m hmem
    have hd : a.markerPos ≤ m.startPos ∨ m.markerPos ≤ a.startPos :=
      (List.pairwise_append.mp hdisj).2.2 a ha m hmem
    rcases hd with hd | hd
    · have hba := hb a (by simp [ha])
      omega
    · exact hd
  have hmain := applyMods_take text m.markerPos pre text
    (fun x hx => ⟨hkey x hx,
      (hb x (by simp [hx])).1, (hb x (by simp [hx])).2.1⟩)
    (Nat.le_refl _) hbm.2.2.1 rfl
  obtain ⟨-, htake⟩ := hmain
  refine ⟨?_, ?_, ?_⟩
  · exact take_congr _ _ m.startPos m.markerPos (by omega) htake
  · exact sliceJS_congr _ _ m.startPos m.endPos m.markerPos hbm.2.1 htake
  · exact sliceJS_congr _ _ m.endPos m.markerPos m.markerPos (Nat.le_refl _) htake

/-- Witness for C5: with the two located citations at start positions 5 and
20, after the fold has applied the later span, the step for the earlier
span still sees its prefix, its wrapped content and its gap exactly as in
the original text. -/
theorem markerInserter_frame_witness :
    (applyMods [modW2] textW).take modW1.startPos = textW.take modW1.startPos ∧
      sliceJS (applyMods [modW2] textW) modW1.startPos modW1.endPos =
        sliceJS textW modW1.startPos modW1.endPos ∧
      sliceJS (applyMods [modW2] textW) modW1.endPos modW1.markerPos =
        sliceJS textW modW1.endPos modW1.markerPos :=
  markerInserter_frame textW [modW2, modW1] (by decide) (by decide) (by decide)
    [modW2] modW1 [] rfl

end Rag

